import Mathlib

/-!
Verification development for the GpxTrackPoster core: the `Poster`
orchestration object (gpxtrackposter/poster.py) and its `YearRange`
collaborator (gpxtrackposter/year_range.py).

Python floats carrying metric lengths are modelled as exact rationals (ℚ);
Python `datetime.datetime` values are modelled at calendar-day granularity
(`Date`), which is all the core reads (year, `strftime("%Y-%m-%d")`,
`isocalendar()`); Python dicts are modelled as insertion-ordered association
lists, matching CPython's guaranteed iteration order.
-/

/-- A calendar date, standing for the `datetime.datetime` start timestamp of a
track.  Only the date part is ever read by the code under study. -/
structure Date where
  year : Nat
  month : Nat
  day : Nat
deriving DecidableEq, Repr

/-- Gregorian leap-year rule, as used by `datetime`. -/
def isLeap (y : Nat) : Bool :=
  (y % 4 == 0 && y % 100 != 0) || y % 400 == 0

/-- Days in the months strictly before month `m` of year `y`. -/
def daysBeforeMonth (y m : Nat) : Nat :=
  let base := [0, 31, 59, 90, 120, 151, 181, 212, 243, 273, 304, 334].getD (m - 1) 0
  if 3 ≤ m && isLeap y then base + 1 else base

/-- One-based ordinal of the date within its year. -/
def Date.dayOfYear (d : Date) : Nat :=
  daysBeforeMonth d.year d.month + d.day

/-- Days in all years strictly before year `y` (proleptic Gregorian). -/
def daysBeforeYear (y : Nat) : Nat :=
  365 * (y - 1) + (y - 1) / 4 - (y - 1) / 100 + (y - 1) / 400

/-- Proleptic-Gregorian ordinal of a date; `Date.mk 1 1 1` has ordinal 1,
matching `datetime.date.toordinal`. -/
def Date.ordinalDay (d : Date) : Nat :=
  daysBeforeYear d.year + d.dayOfYear

/-- ISO weekday: Monday = 1 … Sunday = 7.  Day ordinal 1 (0001-01-01) is a
Monday, as in `datetime`. -/
def Date.isoWeekday (d : Date) : Nat :=
  (d.ordinalDay - 1) % 7 + 1

/-- Number of ISO weeks in year `y`: 53 when January 1 falls on a Thursday,
or on a Wednesday of a leap year; otherwise 52. -/
def isoWeeksInYear (y : Nat) : Nat :=
  let jan1 := Date.isoWeekday ⟨y, 1, 1⟩
  if jan1 == 4 || (isLeap y && jan1 == 3) then 53 else 52

/-- ISO week number of a date (`datetime.date.isocalendar()[1]`). -/
def Date.isoWeekNumber (d : Date) : Nat :=
  let w0 := (d.dayOfYear + 10 - d.isoWeekday) / 7
  if w0 = 0 then isoWeeksInYear (d.year - 1)
  else if w0 = 53 && isoWeeksInYear d.year = 52 then 1
  else w0

/-- ISO week-based year of a date (`datetime.date.isocalendar()[0]`).  Used
only to state what the specification says about the weekly statistic. -/
def Date.isoYear (d : Date) : Nat :=
  let w0 := (d.dayOfYear + 10 - d.isoWeekday) / 7
  if w0 = 0 then d.year - 1
  else if w0 = 53 && isoWeeksInYear d.year = 52 then d.year + 1
  else d.year

/-- Decimal rendering of `n` left-padded with zeros to width `w`. -/
def padNum (w n : Nat) : String :=
  let s := toString n
  String.mk (List.replicate (w - s.length) '0') ++ s

/-- The grouping key `track.start_time.strftime("%Y-%m-%d")`. -/
def Date.strftimeYmd (d : Date) : String :=
  padNum 4 d.year ++ "-" ++ padNum 2 d.month ++ "-" ++ padNum 2 d.day

/-- A GPS track as the core consumes it: a start timestamp and a length in
meters.  (The real track object has more fields; the core reads only these.) -/
structure Track where
  start_time : Date
  length : ℚ
deriving DecidableEq, Repr

/-- Modelled from the spec: `value_range.ValueRange` (the file value_range.py
is not part of the sources under study).  "An accumulator over a stream of
scalars exposing extend(value) (merges a new sample in), lower()/upper()
(current min/max), undefined (or a documented sentinel) before any sample is
extended."  The never-extended state is `none`. -/
structure ValueRange where
  bounds : Option (ℚ × ℚ)
deriving DecidableEq, Repr

/-- A fresh, never-extended `ValueRange()`. -/
def ValueRange.empty : ValueRange := ⟨none⟩

/-- Merge one sample into the running [min, max]. -/
def ValueRange.extend (r : ValueRange) (v : ℚ) : ValueRange :=
  match r.bounds with
  | none => ⟨some (v, v)⟩
  | some (lo, hi) => ⟨some (min lo v, max hi v)⟩

/-- Current minimum, `none` before any sample. -/
def ValueRange.lower (r : ValueRange) : Option ℚ := r.bounds.map Prod.fst

/-- Current maximum, `none` before any sample. -/
def ValueRange.upper (r : ValueRange) : Option ℚ := r.bounds.map Prod.snd

/-- `YearRange.__init__` / the class state: two optional year bounds. -/
structure YearRange where
  from_year : Option Nat
  to_year : Option Nat
deriving DecidableEq, Repr

/-- `YearRange()` — empty bounds. -/
def YearRange.init : YearRange := ⟨none, none⟩

/-- `YearRange.parse`.  Returns the Python boolean together with the state
after the call (Python mutates `self`; we pass the state explicitly).
The regexes `^\d+$` and `^(\d+)-(\d+)$` are rendered with `String.toNat?`
(some iff the string is a non-empty run of decimal digits) and a split at
the single hyphen. -/
def YearRange.parse (yr : YearRange) (s : String) : Bool × YearRange :=
  if s = "all" then (true, ⟨none, none⟩)
  else
    match s.toNat? with
    | some y => (true, ⟨some y, some y⟩)
    | none =>
      match s.splitOn "-" with
      | [a, b] =>
        match a.toNat?, b.toNat? with
        | some y1, some y2 =>
          if y1 ≤ y2 then (true, ⟨some y1, some y2⟩) else (false, yr)
        | _, _ => (false, yr)
      | _ => (false, yr)

/-- `YearRange.clear`. -/
def YearRange.clear (_yr : YearRange) : YearRange := ⟨none, none⟩

/-- `YearRange.add`: widen the bounds to include the year of `t`.  The
`(some, none)` state fails Python's `assert`; it is unreachable under the
class invariant and left as the identity here. -/
def YearRange.add (yr : YearRange) (t : Date) : YearRange :=
  match yr.from_year, yr.to_year with
  | none, _ => ⟨some t.year, some t.year⟩
  | some f, some u =>
    if t.year < f then ⟨some t.year, some u⟩
    else if u < t.year then ⟨some f, some t.year⟩
    else ⟨some f, some u⟩
  | some f, none => ⟨some f, none⟩

/-- `YearRange.contains`: unbounded contains everything, else test
`from_year <= t.year <= to_year`.  The `(some, none)` state fails Python's
`assert`; unreachable under the invariant. -/
def YearRange.contains (yr : YearRange) (t : Date) : Bool :=
  match yr.from_year, yr.to_year with
  | none, _ => true
  | some f, some u => f ≤ t.year && t.year ≤ u
  | some _, none => false

/-- `YearRange.count`: `0` if unbounded, else `1 + to_year - from_year`. -/
def YearRange.count (yr : YearRange) : Nat :=
  match yr.from_year, yr.to_year with
  | none, _ => 0
  | some f, some u => 1 + u - f
  | some _, none => 0

/-- The `Poster` object's state.  The drawing-only members (`colors`,
`tracks_drawer`) are carried as in `__init__` but never read by the
operations under study. -/
structure Poster where
  athlete : Option String := none
  title : String := "My Poster"
  tracks_by_date : List (String × List Track) := []
  tracks : List Track := []
  length_range : ValueRange := ValueRange.empty
  length_range_by_date : ValueRange := ValueRange.empty
  units : String := "metric"
  width : ℚ := 200
  height : ℚ := 300
  years : Option YearRange := none
deriving DecidableEq, Repr

/-- `Poster()` with the defaults of `__init__`. -/
def Poster.init : Poster := {}

/-- `Poster.__compute_years`: a no-op when `years` is already set, otherwise
fold `add(t.start_time)` over the whole input. -/
def Poster.computeYears (p : Poster) (tracks : List Track) : Poster :=
  match p.years with
  | some _ => p
  | none =>
    { p with years := some (tracks.foldl (fun yr t => yr.add t.start_time) YearRange.init) }

/-- Dict update `tracks_by_date[k].append(t)` / `tracks_by_date[k] = [t]`:
append to the existing group, else add a new key at the end (CPython dicts
keep insertion order). -/
def appendTrack : List (String × List Track) → String → Track → List (String × List Track)
  | [], k, t => [(k, [t])]
  | (k', g) :: rest, k, t =>
    if k' = k then (k', g ++ [t]) :: rest else (k', g) :: appendTrack rest k t

/-- The grouping loop of `set_tracks` restricted to the dict: skip tracks
outside `yr`, append the rest under their `%Y-%m-%d` key. -/
def groupsFold (yr : YearRange) (d : List (String × List Track)) (ts : List Track) :
    List (String × List Track) :=
  ts.foldl
    (fun d t =>
      if yr.contains t.start_time then appendTrack d t.start_time.strftimeYmd t else d)
    d

/-- The grouping loop of `set_tracks` restricted to `length_range`: extend
with the length of every track inside `yr`. -/
def lengthFold (yr : YearRange) (r : ValueRange) (ts : List Track) : ValueRange :=
  ts.foldl (fun r t => if yr.contains t.start_time then r.extend t.length else r) r

/-- `Poster.set_tracks`: store the raw list, reset the derived fields,
lazily establish `years`, group the surviving tracks by date while growing
`length_range`, then extend `length_range_by_date` with each group's summed
length. -/
def Poster.setTracks (p : Poster) (tracks : List Track) : Poster :=
  let p1 := { p with
    tracks := tracks
    tracks_by_date := []
    length_range := ValueRange.empty
    length_range_by_date := ValueRange.empty }
  let p2 := p1.computeYears tracks
  let yr := p2.years.getD YearRange.init
  let tbd := groupsFold yr [] tracks
  let lr := lengthFold yr ValueRange.empty tracks
  let lrbd := tbd.foldl (fun r kg => r.extend (kg.2.map Track.length).sum) ValueRange.empty
  { p2 with tracks_by_date := tbd, length_range := lr, length_range_by_date := lrbd }

/-- The key of the `weeks` dict in `__compute_track_statistics`:
`(t.start_time.year, t.start_time.isocalendar()[1])`. -/
def weekKey (t : Track) : Nat × Nat :=
  (t.start_time.year, t.start_time.isoWeekNumber)

/-- `weeks[key] = 1`: overwriting an existing key changes nothing (the value
is always `1` and dicts keep the first insertion position), a new key is
appended. -/
def insertWeek (d : List (Nat × Nat)) (k : Nat × Nat) : List (Nat × Nat) :=
  if k ∈ d then d else d ++ [k]

/-- The tuple returned by `__compute_track_statistics`. -/
structure TrackStats where
  total_length : ℚ
  average_length : ℚ
  min_length : Option ℚ
  max_length : Option ℚ
  weeks : Nat
deriving DecidableEq, Repr

/-- `Poster.__compute_track_statistics`: one pass over the raw `tracks`
accumulating the total, the length range and the set of week keys.  The
return expression divides by `len(self.tracks)`: on an empty list Python
raises an uncontrolled `ZeroDivisionError`, modelled as `none`. -/
def Poster.computeTrackStatistics (p : Poster) : Option TrackStats :=
  let acc := p.tracks.foldl
    (fun (a : ℚ × ValueRange × List (Nat × Nat)) t =>
      (a.1 + t.length, a.2.1.extend t.length, insertWeek a.2.2 (weekKey t)))
    (0, ValueRange.empty, [])
  if p.tracks.length = 0 then none
  else
    some ⟨acc.1, acc.1 / (p.tracks.length : ℚ), acc.2.1.lower, acc.2.1.upper, acc.2.2.length⟩

/-- `Poster.m2u`: meters to display units. -/
def Poster.m2u (p : Poster) (m : ℚ) : ℚ :=
  if p.units = "metric" then 0.001 * m else 0.001 * m / 1.609344

/-- `Poster.u`: the display unit label. -/
def Poster.u (p : Poster) : String :=
  if p.units = "metric" then "km" else "mi"

/-! ## Definitions written from the specification's words (for comparison) -/

/-- Numeric value of a run of decimal digits, as `int()` reads it. -/
def digitsVal (s : String) : Nat :=
  s.foldl (fun n c => n * 10 + (c.toNat - Char.toNat '0')) 0

/-- Follows the specification's words for the accepted inputs of
`YearRange.parse`: the literal token "all" clears both bounds and succeeds; a
string of only decimal digits sets both bounds to that year; two digit
strings joined by a hyphen with the first at most the second sets
`from_year`/`to_year`; every other input (including a hyphen form with the
first greater than the second) fails and leaves the bounds exactly as they
were. -/
def yearRangeParseSpec (yr : YearRange) (s : String) : Bool × YearRange :=
  if s = "all" then (true, ⟨none, none⟩)
  else if s.isNat then (true, ⟨some (digitsVal s), some (digitsVal s)⟩)
  else
    match s.splitOn "-" with
    | [a, b] =>
      if a.isNat && b.isNat && decide (digitsVal a ≤ digitsVal b) then
        (true, ⟨some (digitsVal a), some (digitsVal b)⟩)
      else (false, yr)
    | _ => (false, yr)

/-! ## Observation helpers for the grouping dict -/

/-- All tracks stored in the dict, in dict order. -/
def flattenGroups (d : List (String × List Track)) : List Track :=
  (d.map Prod.snd).flatten

/-- Lookup of a date key in the dict. -/
def findGroup : List (String × List Track) → String → Option (List Track)
  | [], _ => none
  | (k', g) :: rest, k => if k' = k then some g else findGroup rest k

/-- The year range `set_tracks` filters with: the caller-established one if
set, otherwise the one `__compute_years` folds from the input. -/
def activeYears (p : Poster) (ts : List Track) : YearRange :=
  ((p.computeYears ts).years).getD YearRange.init

/-! ## Claim theorems: unit conversion and empty-input statistics -/

/-- C9: For every meters value m, `m2u` returns m / 1000 when the configured
unit system is metric and m / 1000 / 1.609344 when it is imperial; in
particular m2u(1609.344) is exactly 1 in imperial mode (hence approximately
1.0) and equals 1.609344 in metric mode.  Lengths are modelled as exact
rationals, so the float-approximate claim holds exactly. -/
theorem m2u_unit_conversion (p : Poster) (m : ℚ) :
    (p.units = "metric" → p.m2u m = m / 1000) ∧
    (p.units = "imperial" → p.m2u m = m / 1000 / 1.609344) ∧
    Poster.m2u { p with units := "imperial" } 1609.344 = 1 ∧
    Poster.m2u { p with units := "metric" } 1609.344 = 1.609344 := by
  refine ⟨fun h => ?_, fun h => ?_, ?_, ?_⟩
  · rw [Poster.m2u, if_pos h]; ring
  · rw [Poster.m2u, if_neg (by rw [h]; decide)]; ring
  · rw [Poster.m2u, if_neg (show ¬_ = _ by simp)]; norm_num
  · rw [Poster.m2u, if_pos (show _ = _ by simp)]; norm_num

/-- C10: For every configured units value other than the exact string
"metric" (misspellings and arbitrary tokens included), `m2u` silently applies
the imperial conversion and `u` returns "mi"; both operations are total, so
no validation error is ever raised. -/
theorem nonmetric_units_fall_back_to_imperial (p : Poster) (m : ℚ)
    (h : p.units ≠ "metric") :
    p.m2u m = m / 1000 / 1.609344 ∧ p.u = "mi" := by
  unfold Poster.m2u Poster.u
  rw [if_neg h, if_neg h]
  exact ⟨by ring, rfl⟩

/-- Witness for C10 at the misspelled unit token "metrc" and m = 2. -/
theorem nonmetric_units_fall_back_to_imperial_witness :
    ({ Poster.init with units := "metrc" } : Poster).units ≠ "metric" ∧
    (Poster.m2u { Poster.init with units := "metrc" } 2 = 2 / 1000 / 1.609344 ∧
     Poster.u { Poster.init with units := "metrc" } = "mi") :=
  ⟨by decide, nonmetric_units_fall_back_to_imperial _ 2 (by decide)⟩

/-- C3: On an empty track list `__compute_track_statistics` evaluates
`total_length / len(self.tracks)` with a zero denominator and propagates a
raw `ZeroDivisionError` (modelled as `none`); it does not raise a defined,
descriptive error condition, contrary to the claim. -/
theorem stats_empty_raises_zero_division (p : Poster) :
    Poster.computeTrackStatistics { p with tracks := [] } = none := by
  simp [Poster.computeTrackStatistics]

/-- The documented class invariant of `YearRange`: either both bounds are
unset, or both are set with `from_year <= to_year`. -/
def YearRange.wellFormed (yr : YearRange) : Bool :=
  match yr.from_year, yr.to_year with
  | none, none => true
  | some f, some u => decide (f ≤ u)
  | _, _ => false

theorem wellFormed_parse (yr : YearRange) (s : String) (h : yr.wellFormed = true) :
    (YearRange.parse yr s).2.wellFormed = true := by
  unfold YearRange.parse
  split
  · rfl
  · split
    · simp [YearRange.wellFormed]
    · split
      · split
        · split
          · simpa [YearRange.wellFormed]
          · exact h
        · exact h
      · exact h

theorem wellFormed_add (yr : YearRange) (t : Date) (h : yr.wellFormed = true) :
    (yr.add t).wellFormed = true := by
  obtain ⟨_ | f, _ | u⟩ := yr
  · simp [YearRange.add, YearRange.wellFormed]
  · simp [YearRange.add, YearRange.wellFormed]
  · simp [YearRange.wellFormed] at h
  · simp only [YearRange.wellFormed, decide_eq_true_eq] at h
    show YearRange.wellFormed
        (if t.year < f then ⟨some t.year, some u⟩
         else if u < t.year then ⟨some f, some t.year⟩
         else ⟨some f, some u⟩) = true
    split_ifs <;> simp [YearRange.wellFormed] <;> omega

theorem count_characterization (yr : YearRange) (h : yr.wellFormed = true) :
    (yr.from_year = none → yr.count = 0) ∧
    (∀ a b, yr.from_year = some a → yr.to_year = some b → yr.count = b - a + 1) := by
  obtain ⟨_ | f, _ | u⟩ := yr <;> simp [YearRange.wellFormed] at h <;>
    constructor <;> simp [YearRange.count] <;> omega

theorem contains_characterization (yr : YearRange) (d : Date) (h : yr.wellFormed = true) :
    (yr.from_year = none → yr.contains d = true) ∧
    (∀ a b, yr.from_year = some a → yr.to_year = some b →
      (yr.contains d = true ↔ a ≤ d.year ∧ d.year ≤ b)) := by
  obtain ⟨_ | f, _ | u⟩ := yr <;> simp [YearRange.wellFormed] at h <;>
    constructor <;> simp [YearRange.contains]

/-- C8: Every YearRange operation (construction, parse, clear, add) preserves
the invariant that either both bounds are unset or both are set with
from_year ≤ to_year; and in any state satisfying it, count() is 0 when
unbounded and to_year - from_year + 1 otherwise, and contains(t) is true
when unbounded, and otherwise true exactly when
from_year ≤ t.year ≤ to_year. -/
theorem yearRange_invariant_and_queries :
    YearRange.init.wellFormed = true ∧
    (∀ (yr : YearRange) (s : String), yr.wellFormed = true →
      (YearRange.parse yr s).2.wellFormed = true) ∧
    (∀ yr : YearRange, (yr.clear).wellFormed = true) ∧
    (∀ (yr : YearRange) (t : Date), yr.wellFormed = true → (yr.add t).wellFormed = true) ∧
    (∀ yr : YearRange, yr.wellFormed = true →
      ((yr.from_year = none → yr.count = 0) ∧
       (∀ a b, yr.from_year = some a → yr.to_year = some b → yr.count = b - a + 1))) ∧
    (∀ (yr : YearRange) (d : Date), yr.wellFormed = true →
      ((yr.from_year = none → yr.contains d = true) ∧
       (∀ a b, yr.from_year = some a → yr.to_year = some b →
         (yr.contains d = true ↔ a ≤ d.year ∧ d.year ≤ b)))) :=
  ⟨rfl, wellFormed_parse, fun _ => rfl, wellFormed_add,
   count_characterization, contains_characterization⟩

theorem toNat_eq_digits (s : String) :
    s.toNat? = if s.isNat then some (digitsVal s) else none := rfl

theorem parse_eq_spec_main (yr : YearRange) (s : String) :
    YearRange.parse yr s = yearRangeParseSpec yr s := by
  unfold YearRange.parse yearRangeParseSpec
  by_cases hall : s = "all"
  · simp [hall]
  · simp only [hall, ite_false, if_false]
    rw [toNat_eq_digits s]
    by_cases hs : s.isNat
    · simp [hs]
    · simp only [hs, Bool.false_eq_true, ite_false, if_false]
      cases hsplit : s.splitOn "-" with
      | nil => rfl
      | cons a rest =>
        cases rest with
        | nil => rfl
        | cons b rest2 =>
          cases rest2 with
          | nil =>
            dsimp only
            rw [toNat_eq_digits a, toNat_eq_digits b]
            by_cases ha : a.isNat <;> by_cases hb : b.isNat <;> simp [ha, hb]
          | cons c rest3 => rfl

theorem parse_no_mutation (yr : YearRange) (s : String) :
    (YearRange.parse yr s).1 = false → (YearRange.parse yr s).2 = yr := by
  unfold YearRange.parse
  repeat' split
  all_goals intro h
  all_goals simp_all

/-- C7: YearRange.parse accepts exactly three input shapes — the literal
"all" (clears both bounds, returns true), a string of only decimal digits
(sets both bounds to that year, returns true), and two digit strings joined
by a hyphen with first ≤ second (sets from_year/to_year, returns true);
every other input, including a hyphen form with first > second, returns
false and leaves both bounds exactly as they were. -/
theorem parse_accepts_exactly_three_shapes (yr : YearRange) (s : String) :
    YearRange.parse yr s = yearRangeParseSpec yr s ∧
    ((YearRange.parse yr s).1 = false → (YearRange.parse yr s).2 = yr) :=
  ⟨parse_eq_spec_main yr s, parse_no_mutation yr s⟩

theorem insertWeek_toFinset (d : List (Nat × Nat)) (k : Nat × Nat) :
    (insertWeek d k).toFinset = insert k d.toFinset := by
  unfold insertWeek
  split
  · rw [Finset.insert_eq_self.2 (by simp_all)]
  · rw [List.toFinset_append]
    ext x
    simp [or_comm]

theorem insertWeek_nodup (d : List (Nat × Nat)) (k : Nat × Nat) (h : d.Nodup) :
    (insertWeek d k).Nodup := by
  unfold insertWeek
  split
  · exact h
  next hk =>
    rw [List.nodup_append]
    refine ⟨h, List.nodup_singleton k, ?_⟩
    intro a ha hmem
    simp only [List.mem_singleton] at hmem
    subst hmem
    exact hk ha

theorem weeksFold_nodup_toFinset (ts : List Track) (d : List (Nat × Nat)) (h : d.Nodup) :
    (ts.foldl (fun d t => insertWeek d (weekKey t)) d).Nodup ∧
    (ts.foldl (fun d t => insertWeek d (weekKey t)) d).toFinset =
      d.toFinset ∪ (ts.map weekKey).toFinset := by
  induction ts generalizing d with
  | nil => simp [h]
  | cons t ts ih =>
    obtain ⟨ihn, ihf⟩ := ih (insertWeek d (weekKey t)) (insertWeek_nodup d _ h)
    refine ⟨ihn, ?_⟩
    rw [List.foldl_cons, ihf, insertWeek_toFinset]
    simp only [List.map_cons, List.toFinset_cons]
    ext x
    simp

theorem statsFold_decompose (ts : List Track) (x : ℚ) (r : ValueRange) (d : List (Nat × Nat)) :
    ts.foldl
        (fun (a : ℚ × ValueRange × List (Nat × Nat)) t =>
          (a.1 + t.length, a.2.1.extend t.length, insertWeek a.2.2 (weekKey t)))
        (x, r, d) =
      (x + (ts.map Track.length).sum,
       ts.foldl (fun r t => r.extend t.length) r,
       ts.foldl (fun d t => insertWeek d (weekKey t)) d) := by
  induction ts generalizing x r d with
  | nil => simp
  | cons t ts ih =>
    simp only [List.foldl_cons, List.map_cons, List.sum_cons, ih]
    rw [add_assoc]

theorem extendFold_bounds (rest : List Track) (lo hi : ℚ) :
    rest.foldl (fun r t => r.extend t.length) (⟨some (lo, hi)⟩ : ValueRange) =
      ⟨some ((rest.map Track.length).foldl min lo, (rest.map Track.length).foldl max hi)⟩ := by
  induction rest generalizing lo hi with
  | nil => rfl
  | cons t ts ih =>
    simp only [List.foldl_cons, List.map_cons]
    exact ih (min lo t.length) (max hi t.length)

theorem setTracks_tracks (p : Poster) (ts : List Track) : (p.setTracks ts).tracks = ts := by
  unfold Poster.setTracks Poster.computeYears
  cases hp : p.years <;> simp

/-- C2 (amended): for every non-empty track list, the weeks value returned
by the statistics computation equals the number of distinct
(calendar year, ISO week number) pairs among the start timestamps — the code
keys the dict by `t.start_time.year` (the calendar year), not the ISO
week-based year the original claim names. -/
theorem weeks_counts_distinct_year_week_pairs (p : Poster) (t0 : Track) (rest : List Track) :
    ∃ st, Poster.computeTrackStatistics { p with tracks := t0 :: rest } = some st ∧
      st.weeks = ((t0 :: rest).map weekKey).toFinset.card := by
  unfold Poster.computeTrackStatistics
  dsimp only
  rw [statsFold_decompose]
  simp only [List.length_cons, Nat.succ_ne_zero, if_false]
  refine ⟨_, rfl, ?_⟩
  obtain ⟨hnodup, hfin⟩ := weeksFold_nodup_toFinset (t0 :: rest) [] List.nodup_nil
  rw [← List.toFinset_card_of_nodup hnodup, hfin]
  simp

/-- C6: the footer statistics are computed from the full, unfiltered tracks
list exactly as stored by `set_tracks` (for an arbitrary poster state, hence
an arbitrary active year filter): the total is the sum of all lengths, the
average is that total divided by the number of tracks, and min/max are the
minimum and maximum over all track lengths. -/
theorem footer_statistics_from_raw_tracks (p : Poster) (t0 : Track) (rest : List Track) :
    ∃ st, Poster.computeTrackStatistics (p.setTracks (t0 :: rest)) = some st ∧
      st.total_length = ((t0 :: rest).map Track.length).sum ∧
      st.average_length = ((t0 :: rest).map Track.length).sum / (((t0 :: rest).length : Nat) : ℚ) ∧
      st.min_length = some ((rest.map Track.length).foldl min t0.length) ∧
      st.max_length = some ((rest.map Track.length).foldl max t0.length) := by
  unfold Poster.computeTrackStatistics
  rw [setTracks_tracks]
  rw [statsFold_decompose]
  simp only [List.length_cons, Nat.succ_ne_zero, if_false]
  refine ⟨_, rfl, by simp, by simp, ?_, ?_⟩
  · show (List.foldl (fun r t => r.extend t.length) ValueRange.empty (t0 :: rest)).lower = _
    rw [List.foldl_cons]
    rw [show ValueRange.extend ValueRange.empty t0.length =
          (⟨some (t0.length, t0.length)⟩ : ValueRange) from rfl]
    rw [extendFold_bounds]
    rfl
  · show (List.foldl (fun r t => r.extend t.length) ValueRange.empty (t0 :: rest)).upper = _
    rw [List.foldl_cons]
    rw [show ValueRange.extend ValueRange.empty t0.length =
          (⟨some (t0.length, t0.length)⟩ : ValueRange) from rfl]
    rw [extendFold_bounds]
    rfl

/-- Counterexample to C2 as stated: for the two tracks starting 2020-12-31
and 2021-01-01 (both in ISO week 53 of ISO year 2020), the code returns
weeks = 2 — it pairs the ISO week number with the calendar year, giving
(2020, 53) and (2021, 53) — while the number of distinct
(ISO year, ISO week number) pairs is 1. -/
theorem weeks_isoyear_counterexample :
    (Poster.computeTrackStatistics
        { Poster.init with
          tracks := [⟨⟨2020, 12, 31⟩, 1000⟩, ⟨⟨2021, 1, 1⟩, 2000⟩] }).map TrackStats.weeks =
      some 2 ∧
    ([(⟨⟨2020, 12, 31⟩, 1000⟩ : Track), ⟨⟨2021, 1, 1⟩, 2000⟩].map
        (fun t => (t.start_time.isoYear, t.start_time.isoWeekNumber))).toFinset.card = 1 := by
  constructor
  · norm_num [Poster.computeTrackStatistics, Poster.init, insertWeek, weekKey,
      Date.isoWeekNumber, Date.isoWeekday, Date.ordinalDay, Date.dayOfYear,
      daysBeforeYear, daysBeforeMonth, isoWeeksInYear, isLeap]
  · decide

/-- Witness for C2 (amended) at a concrete two-track list crossing an ISO
year boundary. -/
theorem weeks_counts_distinct_year_week_pairs_witness :
    ∃ st,
      Poster.computeTrackStatistics
          { Poster.init with
            tracks := (⟨⟨2020, 12, 31⟩, 1000⟩ : Track) :: [⟨⟨2021, 1, 1⟩, 2000⟩] } =
        some st ∧
      st.weeks =
        (((⟨⟨2020, 12, 31⟩, 1000⟩ : Track) :: [⟨⟨2021, 1, 1⟩, 2000⟩]).map weekKey).toFinset.card :=
  weeks_counts_distinct_year_week_pairs Poster.init ⟨⟨2020, 12, 31⟩, 1000⟩ [⟨⟨2021, 1, 1⟩, 2000⟩]

/-- Combining an already-found group with the tracks later appended under the
same key; `none` stands for a key never inserted. -/
def joinOpt (o : Option (List Track)) (l : List Track) : Option (List Track) :=
  match o with
  | none => if l.isEmpty then none else some l
  | some g => some (g ++ l)

theorem appendTrack_flatten_perm (d : List (String × List Track)) (k : String) (t : Track) :
    (flattenGroups (appendTrack d k t)).Perm (flattenGroups d ++ [t]) := by
  induction d with
  | nil => simp [appendTrack, flattenGroups]
  | cons kg rest ih =>
    obtain ⟨k2, g⟩ := kg
    unfold appendTrack
    split
    · simp only [flattenGroups, List.map_cons, List.flatten_cons, List.append_assoc]
      exact List.Perm.append_left g List.perm_append_comm
    · simp only [flattenGroups, List.map_cons, List.flatten_cons, List.append_assoc]
      exact List.Perm.append_left g ih

theorem groupsFold_cons (yr : YearRange) (d : List (String × List Track)) (t : Track)
    (ts : List Track) :
    groupsFold yr d (t :: ts) =
      groupsFold yr
        (if yr.contains t.start_time then appendTrack d t.start_time.strftimeYmd t else d)
        ts := rfl

theorem groupsFold_flatten_perm (yr : YearRange) (ts : List Track)
    (d : List (String × List Track)) :
    (flattenGroups (groupsFold yr d ts)).Perm
      (flattenGroups d ++ ts.filter (fun t => yr.contains t.start_time)) := by
  induction ts generalizing d with
  | nil => simp [groupsFold]
  | cons t ts ih =>
    rw [groupsFold_cons]
    by_cases hp : yr.contains t.start_time
    · rw [if_pos hp]
      simp only [List.filter_cons, hp, if_true]
      have h1 := ih (appendTrack d t.start_time.strftimeYmd t)
      have h2 := (appendTrack_flatten_perm d t.start_time.strftimeYmd t).append_right
        (ts.filter (fun t => yr.contains t.start_time))
      refine h1.trans (h2.trans ?_)
      rw [List.append_assoc]
      exact List.Perm.refl _
    · rw [if_neg hp]
      simp only [List.filter_cons, hp, if_false, Bool.false_eq_true]
      exact ih d

theorem findGroup_appendTrack_same (d : List (String × List Track)) (k : String) (t : Track) :
    findGroup (appendTrack d k t) k = some ((findGroup d k).getD [] ++ [t]) := by
  induction d with
  | nil => simp [appendTrack, findGroup]
  | cons kg rest ih =>
    obtain ⟨k2, g⟩ := kg
    unfold appendTrack
    split
    next h => simp [findGroup, h]
    next h => simp [findGroup, h, ih]

theorem findGroup_appendTrack_other (d : List (String × List Track)) (k k2 : String)
    (t : Track) (h : k2 ≠ k) :
    findGroup (appendTrack d k t) k2 = findGroup d k2 := by
  induction d with
  | nil => simp [appendTrack, findGroup, Ne.symm h]
  | cons kg rest ih =>
    obtain ⟨k3, g⟩ := kg
    unfold appendTrack
    split
    next he =>
      subst he
      simp [findGroup, Ne.symm h]
    next he => simp [findGroup, ih]

theorem groupsFold_findGroup (yr : YearRange) (ts : List Track)
    (d : List (String × List Track)) (k : String) :
    findGroup (groupsFold yr d ts) k =
      joinOpt (findGroup d k)
        (ts.filter (fun t => yr.contains t.start_time && t.start_time.strftimeYmd == k)) := by
  induction ts generalizing d with
  | nil =>
    cases hfg : findGroup d k <;> simp [groupsFold, joinOpt, hfg]
  | cons t ts ih =>
    rw [groupsFold_cons]
    by_cases hp : yr.contains t.start_time
    · by_cases hk : t.start_time.strftimeYmd = k
      · rw [if_pos hp, ih, hk, findGroup_appendTrack_same]
        simp only [List.filter_cons, hp, hk, beq_self_eq_true, Bool.and_self, if_true]
        cases hfg : findGroup d k <;> simp [joinOpt, hfg]
      · rw [if_pos hp, ih, findGroup_appendTrack_other d _ k t (Ne.symm hk)]
        simp [List.filter_cons, hk]
    · rw [if_neg hp, ih]
      simp [List.filter_cons, hp]

theorem setTracks_years_eq (p : Poster) (ts : List Track) :
    (p.setTracks ts).years = some (activeYears p ts) := by
  unfold Poster.setTracks activeYears Poster.computeYears
  cases hp : p.years <;> simp [hp]

theorem setTracks_tracks_by_date_eq (p : Poster) (ts : List Track) :
    (p.setTracks ts).tracks_by_date = groupsFold (activeYears p ts) [] ts := by
  unfold Poster.setTracks activeYears Poster.computeYears
  cases hp : p.years <;> simp [hp]

theorem setTracks_length_range_eq (p : Poster) (ts : List Track) :
    (p.setTracks ts).length_range = lengthFold (activeYears p ts) ValueRange.empty ts := by
  unfold Poster.setTracks activeYears Poster.computeYears
  cases hp : p.years <;> simp [hp]

theorem setTracks_lrbd_eq (p : Poster) (ts : List Track) :
    (p.setTracks ts).length_range_by_date =
      ((p.setTracks ts).tracks_by_date.map (fun kg => (kg.2.map Track.length).sum)).foldl
        (fun r v => r.extend v) ValueRange.empty := by
  rw [List.foldl_map]
  unfold Poster.setTracks Poster.computeYears
  cases hp : p.years <;> simp

theorem lengthFold_eq_filter (yr : YearRange) (ts : List Track) (r : ValueRange) :
    lengthFold yr r ts =
      (ts.filter (fun t => yr.contains t.start_time)).foldl (fun r t => r.extend t.length) r := by
  induction ts generalizing r with
  | nil => rfl
  | cons t ts ih =>
    unfold lengthFold
    rw [List.foldl_cons]
    by_cases hp : yr.contains t.start_time
    · rw [if_pos hp]
      simp only [List.filter_cons, hp, if_true, List.foldl_cons]
      exact ih (r.extend t.length)
    · rw [if_neg hp]
      simp only [List.filter_cons, hp, if_false, Bool.false_eq_true]
      exact ih r

/-- C1: after `set_tracks`, the multiset union of all groups in
`tracks_by_date` is exactly the subset of input tracks whose start year is
inside the active years range; the group stored under each date key `k` is
exactly the in-range tracks of that day, in input order (so same-day tracks
keep input order and out-of-range tracks are in no group); and the two
length ranges are built only from those surviving tracks: `length_range`
from the filtered tracks' lengths and `length_range_by_date` from the
groups' summed lengths. -/
theorem setTracks_grouping_spec (p : Poster) (ts : List Track) :
    (flattenGroups (p.setTracks ts).tracks_by_date).Perm
        (ts.filter (fun t => (activeYears p ts).contains t.start_time)) ∧
    (∀ k, findGroup (p.setTracks ts).tracks_by_date k =
        joinOpt none (ts.filter (fun t =>
          (activeYears p ts).contains t.start_time && t.start_time.strftimeYmd == k))) ∧
    (p.setTracks ts).length_range =
      (ts.filter (fun t => (activeYears p ts).contains t.start_time)).foldl
        (fun r t => r.extend t.length) ValueRange.empty ∧
    (p.setTracks ts).length_range_by_date =
      ((p.setTracks ts).tracks_by_date.map (fun kg => (kg.2.map Track.length).sum)).foldl
        (fun r v => r.extend v) ValueRange.empty := by
  refine ⟨?_, ?_, ?_, setTracks_lrbd_eq p ts⟩
  · rw [setTracks_tracks_by_date_eq]
    simpa [flattenGroups] using groupsFold_flatten_perm (activeYears p ts) ts []
  · intro k
    rw [setTracks_tracks_by_date_eq, groupsFold_findGroup]
    rfl
  · rw [setTracks_length_range_eq, lengthFold_eq_filter]

theorem add_some_bounds (f u : Nat) (d : Date) (h : f ≤ u) :
    YearRange.add ⟨some f, some u⟩ d = ⟨some (min f d.year), some (max u d.year)⟩ := by
  show (if d.year < f then (⟨some d.year, some u⟩ : YearRange)
        else if u < d.year then ⟨some f, some d.year⟩
        else ⟨some f, some u⟩) = _
  split_ifs <;> simp [YearRange.mk.injEq] <;> omega

theorem yearsFold_some_bounds (ts : List Track) (f u : Nat) (h : f ≤ u) :
    ts.foldl (fun yr t => yr.add t.start_time) (⟨some f, some u⟩ : YearRange) =
      ⟨some (ts.foldl (fun a t => min a t.start_time.year) f),
       some (ts.foldl (fun a t => max a t.start_time.year) u)⟩ := by
  induction ts generalizing f u with
  | nil => rfl
  | cons t ts ih =>
    simp only [List.foldl_cons]
    rw [add_some_bounds f u t.start_time h]
    exact ih _ _ (by omega)

theorem foldl_minYear_le_start (l : List Track) (a : Nat) :
    l.foldl (fun a tr => min a tr.start_time.year) a ≤ a := by
  induction l generalizing a with
  | nil => exact le_refl a
  | cons x l ih => exact le_trans (ih (min a x.start_time.year)) (by omega)

theorem foldl_minYear_le_mem (l : List Track) (a : Nat) (t : Track) (ht : t ∈ l) :
    l.foldl (fun a tr => min a tr.start_time.year) a ≤ t.start_time.year := by
  induction l generalizing a with
  | nil => cases ht
  | cons x l ih =>
    rcases List.mem_cons.1 ht with rfl | hmem
    · exact le_trans (foldl_minYear_le_start l _)
        (by show min a t.start_time.year ≤ t.start_time.year; omega)
    · exact ih _ hmem

theorem le_foldl_maxYear_start (l : List Track) (a : Nat) :
    a ≤ l.foldl (fun a tr => max a tr.start_time.year) a := by
  induction l generalizing a with
  | nil => exact le_refl a
  | cons x l ih => exact le_trans (by omega) (ih (max a x.start_time.year))

theorem le_foldl_maxYear_mem (l : List Track) (a : Nat) (t : Track) (ht : t ∈ l) :
    t.start_time.year ≤ l.foldl (fun a tr => max a tr.start_time.year) a := by
  induction l generalizing a with
  | nil => cases ht
  | cons x l ih =>
    rcases List.mem_cons.1 ht with rfl | hmem
    · exact le_trans (by show t.start_time.year ≤ max a t.start_time.year; omega)
        (le_foldl_maxYear_start l _)
    · exact ih _ hmem

theorem yearsFold_contains_mem (t0 : Track) (rest : List Track) (t : Track)
    (ht : t ∈ t0 :: rest) :
    ((t0 :: rest).foldl (fun yr tr => yr.add tr.start_time) YearRange.init).contains
      t.start_time = true := by
  rw [List.foldl_cons]
  rw [show YearRange.add YearRange.init t0.start_time =
        (⟨some t0.start_time.year, some t0.start_time.year⟩ : YearRange) from rfl]
  rw [yearsFold_some_bounds rest _ _ (le_refl _)]
  have hmin : rest.foldl (fun a tr => min a tr.start_time.year) t0.start_time.year ≤
      t.start_time.year := by
    rcases List.mem_cons.1 ht with rfl | hmem
    · exact foldl_minYear_le_start _ _
    · exact foldl_minYear_le_mem _ _ _ hmem
  have hmax : t.start_time.year ≤
      rest.foldl (fun a tr => max a tr.start_time.year) t0.start_time.year := by
    rcases List.mem_cons.1 ht with rfl | hmem
    · exact le_foldl_maxYear_start _ _
    · exact le_foldl_maxYear_mem _ _ _ hmem
  simp [YearRange.contains, hmin, hmax]

/-- C4: when the years field is already established, `set_tracks` leaves it
unchanged (it is never recomputed) and filters the new track list with that
original range. -/
theorem setTracks_keeps_established_years (p : Poster) (ts : List Track) (yr : YearRange)
    (h : p.years = some yr) :
    (p.setTracks ts).years = some yr ∧
    (flattenGroups (p.setTracks ts).tracks_by_date).Perm
      (ts.filter (fun t => yr.contains t.start_time)) := by
  have hact : activeYears p ts = yr := by
    unfold activeYears Poster.computeYears
    simp [h]
  constructor
  · rw [setTracks_years_eq, hact]
  · rw [setTracks_tracks_by_date_eq, hact]
    simpa [flattenGroups] using groupsFold_flatten_perm yr ts []

def yr1618 : YearRange := ⟨some 2016, some 2018⟩

def posterPreset : Poster := { Poster.init with years := some yr1618 }

def demoTracks : List Track := [⟨⟨2016, 1, 1⟩, 1000⟩, ⟨⟨2021, 6, 15⟩, 5000⟩]

/-- Witness for C4 at a poster whose range 2016-2018 was established before
a second `set_tracks` with a list containing a 2021 track. -/
theorem setTracks_keeps_established_years_witness :
    (posterPreset.years = some yr1618) ∧
    ((posterPreset.setTracks demoTracks).years = some yr1618 ∧
     (flattenGroups (posterPreset.setTracks demoTracks).tracks_by_date).Perm
       (demoTracks.filter (fun t => yr1618.contains t.start_time))) :=
  ⟨rfl, setTracks_keeps_established_years posterPreset demoTracks yr1618 rfl⟩

/-- C5: on a poster whose years field is unset, `set_tracks` establishes the
range folded with `add` over every input track; that range contains the
start year of every input track, so the filter of that same call excludes
nothing: every input track lands in `tracks_by_date` (the groups' union is
the whole input) and every length extends `length_range`. -/
theorem first_setTracks_excludes_nothing (p : Poster) (ts : List Track)
    (h : p.years = none) :
    (p.setTracks ts).years =
      some (ts.foldl (fun yr t => yr.add t.start_time) YearRange.init) ∧
    (∀ t ∈ ts, (ts.foldl (fun yr tr => yr.add tr.start_time) YearRange.init).contains
        t.start_time = true) ∧
    (flattenGroups (p.setTracks ts).tracks_by_date).Perm ts ∧
    (p.setTracks ts).length_range = ts.foldl (fun r t => r.extend t.length) ValueRange.empty := by
  have hact : activeYears p ts = ts.foldl (fun yr t => yr.add t.start_time) YearRange.init := by
    unfold activeYears Poster.computeYears
    simp [h]
  have hcontains : ∀ t ∈ ts, (activeYears p ts).contains t.start_time = true := by
    intro t ht
    cases ts with
    | nil => cases ht
    | cons t0 rest =>
      rw [hact]
      exact yearsFold_contains_mem t0 rest t ht
  have hfilter : ts.filter (fun t => (activeYears p ts).contains t.start_time) = ts :=
    List.filter_eq_self.2 hcontains
  refine ⟨?_, ?_, ?_, ?_⟩
  · rw [setTracks_years_eq, hact]
  · intro t ht
    rw [← hact]
    exact hcontains t ht
  · rw [setTracks_tracks_by_date_eq]
    have h1 := groupsFold_flatten_perm (activeYears p ts) ts []
    rw [hfilter] at h1
    simpa [flattenGroups] using h1
  · rw [setTracks_length_range_eq, lengthFold_eq_filter, hfilter]

/-- Witness for C5: a fresh poster (years unset) given two tracks from
different years; nothing is filtered out. -/
theorem first_setTracks_excludes_nothing_witness :
    (Poster.init.years = none) ∧
    ((Poster.init.setTracks demoTracks).years =
        some (demoTracks.foldl (fun yr t => yr.add t.start_time) YearRange.init) ∧
     (∀ t ∈ demoTracks,
        (demoTracks.foldl (fun yr tr => yr.add tr.start_time) YearRange.init).contains
          t.start_time = true) ∧
     (flattenGroups (Poster.init.setTracks demoTracks).tracks_by_date).Perm demoTracks ∧
     (Poster.init.setTracks demoTracks).length_range =
       demoTracks.foldl (fun r t => r.extend t.length) ValueRange.empty) :=
  ⟨rfl, first_setTracks_excludes_nothing Poster.init demoTracks rfl⟩
